import Mathlib

/-!
Shallow embedding of `src/lib.rs` of the `bevy_discovery` crate: the
procedural-macro pass that walks a Rust module tree starting at a root file,
collects functions annotated with the `#[system]` attribute, emits one
registration operation per discovered function, and caches per-file results
in a modification-time-indexed store.

Modelling conventions:
* a filesystem path (`std::path::PathBuf`) is the list of its normal
  components, as `List String`;
* `std::time::Duration` timestamps are `Nat`;
* `proc_macro2::TokenStream`s restricted to syntactic paths (`syn::Path`)
  are segment lists `List String`; the `to_string` / `parse_str` round trip
  the source performs on them is the identity at this level of modelling;
* an attribute's argument `TokenStream` is kept as an opaque `String`
  (`none` models an attribute without a parenthesized argument list, for
  which `Attribute::parse_args` returns `Err`);
* every panic (`unwrap`, `expect`, `panic!`'s in the source) and every
  fatal condition is `Option.none`;
* the mutually recursive file traversal is driven by an explicit fuel
  parameter, `none` on exhaustion; the real traversal terminates on every
  acyclic module tree, and all theorems either quantify over fuel or use a
  concrete sufficient fuel.
-/

/-- A filesystem path, as its list of normal components. -/
abbrev PathBuf := List String

/-- `SystemEntry` from `src/lib.rs`: one discovered `#[system]` function.
`path` is the stored fully qualified symbolic path (the source stores
`quote!{ #module_path::#ident }.to_string()` and re-parses it; we keep the
segment list).  `stage` is the attribute's argument tokens, if any. -/
structure SystemEntry where
  path : List String
  stage : Option String
deriving DecidableEq, Repr

/-- `CacheEntry` from `src/lib.rs`. -/
structure CacheEntry where
  last_modified : Nat
  referenced_files : List PathBuf
  fn_paths : List SystemEntry
  module_path : List String
  search_directory : PathBuf
deriving DecidableEq, Repr

/-- The cache store `FxHashMap<PathBuf, CacheEntry>`, as an association
list; only lookup, remove and insert are used by the source. -/
abbrev Store := List (PathBuf × CacheEntry)

/-- Map lookup (`HashMap::get` / the lookup half of `remove_entry`). -/
def findEntry? : Store → PathBuf → Option CacheEntry
  | [], _ => none
  | (k, v) :: rest, p => if k = p then some v else findEntry? rest p

/-- Key removal (the removal half of `HashMap::remove_entry`). -/
def eraseKey : Store → PathBuf → Store
  | [], _ => []
  | (k, v) :: rest, p => if k = p then eraseKey rest p else (k, v) :: eraseKey rest p

/-- `HashMap::insert`: the new binding shadows (replaces) any old one. -/
def insertKey (st : Store) (k : PathBuf) (v : CacheEntry) : Store :=
  (k, v) :: eraseKey st k

/-- An attribute on a function item: its (segment) path and its optional
parenthesized argument tokens.  `args = none` models `#[system]` with no
`(...)`, for which `parse_args` fails and the source records no stage. -/
structure FnAttr where
  path : List String
  args : Option String

/-- The slice of `syn::Item` the source inspects: functions (with their
attributes), modules (inline body or external), and everything else. -/
inductive Item where
  | fnDecl (name : String) (attrs : List FnAttr)
  | modDecl (name : String) (content : Option (List Item))
  | other

/-- Parsed content and modification time of one on-disk file.  Files whose
content does not parse are not modelled: `syn::parse_file` failure is one
more fatal `none`, and no claim depends on it. -/
structure FileData where
  mtime : Nat
  items : List Item

/-- The file tree the pass runs against, as a finite map from exact path to
file data.  `exists()` and `File::open` succeed exactly on its keys. -/
structure FSys where
  files : List (PathBuf × FileData)

/-- Association-list lookup over the file table. -/
def lookupFile : List (PathBuf × FileData) → PathBuf → Option FileData
  | [], _ => none
  | (k, v) :: rest, p => if k = p then some v else lookupFile rest p

/-- File lookup (`File::open` / `Path::exists` / `metadata`). -/
def FSys.find? (fs : FSys) (p : PathBuf) : Option FileData :=
  lookupFile fs.files p

/-- `metadata().modified()` as seconds since the epoch; `none` is the
"cannot read metadata" panic of `search_file_cache`. -/
def mtimeOf (fs : FSys) (p : PathBuf) : Option Nat :=
  (fs.find? p).map FileData.mtime

/-- `s.starts_with("r#")`: the component's first two characters are the
raw-identifier escape. -/
def isRawSeg (s : String) : Bool :=
  match s.toList with
  | 'r' :: '#' :: _ => true
  | _ => false

/-- The path normalization performed at the top of `search_file_cache`:
keep exactly the components that do not start with the raw-identifier
escape `r#`, dropping the others. -/
def normalizePath (p : PathBuf) : PathBuf :=
  p.filter (fun s => !(isRawSeg s))

/-- Splits reversed file-name characters into reversed stem and reversed
extension, `none` when there is no extension (no dot, or only a leading
dot), mirroring `Path::extension`'s convention. -/
def extSplitRev (rev : List Char) : Option (List Char × List Char) :=
  match rev.dropWhile (fun c => c != '.') with
  | '.' :: stemRev =>
      if stemRev.isEmpty then none
      else some (stemRev, rev.takeWhile (fun c => c != '.'))
  | _ => none

/-- `Path::set_extension` on a single file-name component: replace the
extension when present, append one otherwise; an empty `e` strips it. -/
def setExtStr (s : String) (e : String) : String :=
  match extSplitRev s.toList.reverse with
  | some (stemRev, _) =>
      if e.isEmpty then String.mk stemRev.reverse
      else String.mk stemRev.reverse ++ ("." ++ e)
  | none => if e.isEmpty then s else s ++ ("." ++ e)

/-- `Path::with_extension` / `set_extension`: acts on the last component,
identity on the empty path. -/
def withExtension : PathBuf → String → PathBuf
  | [], _ => []
  | [s], e => [setExtStr s e]
  | s :: rest, e => s :: withExtension rest e

/-- The search-directory computation of `search_file_cache`'s no-entry
branch: the path with its extension stripped, except that a file stem of
`mod`, `lib` or `main` selects the parent directory instead. -/
def rootSearchPath (p : PathBuf) : PathBuf :=
  match (withExtension p "").getLast? with
  | some "mod" => p.dropLast
  | some "lib" => p.dropLast
  | some "main" => p.dropLast
  | _ => withExtension p ""

/-- One emitted registration operation.  `dotSystem` records whether the
emitted tokens wrap the path in a `.system()` call: the cached-replay arm
of `search_file_cache` emits `#path.system()`, while the fresh-scan arm of
`search_contents` emits bare `#path`. -/
inductive Reg where
  | addSystem (path : List String) (dotSystem : Bool)
  | addSystemToStage (stage : String) (path : List String) (dotSystem : Bool)
deriving DecidableEq, Repr

/-- The mutable context threaded through one pass: the store, the output
token stream restricted to its registration operations (`ts`), and a log of
the files the Declaration Scanner (`search_file`, i.e. open + parse +
`search_contents`) was invoked on, in order. -/
structure PassState where
  store : Store
  out : List Reg
  scans : List PathBuf
deriving DecidableEq, Repr

/-- `ContentSearchResult` from `src/lib.rs`. -/
structure ContentSearchResult where
  direct_additions : List SystemEntry
  direct_referenced_paths : List PathBuf
deriving DecidableEq, Repr

/-- The replay loop of `search_file_cache`'s fresh branch: each stored
`SystemEntry` becomes one registration with its recorded stage (or none),
in recorded order, with the `.system()` wrapper. -/
def replayRegs (entries : List SystemEntry) : List Reg :=
  entries.map (fun e =>
    match e.stage with
    | some stg => Reg.addSystemToStage stg e.path true
    | none => Reg.addSystem e.path true)

mutual

/-- `search_file_cache` from `src/lib.rs`: normalize the path, read its
modification time (fatal when unreadable), then reuse, rescan after
discarding a stale entry, or scan from scratch. -/
def search_file_cache : Nat → FSys → PathBuf → List String → PassState → Option PassState
  | 0, _, _, _, _ => none
  | fuel + 1, fs, filepath0, module_path, st =>
    let filepath := normalizePath filepath0
    match mtimeOf fs filepath with
    | none => none
    | some last_modified =>
      match findEntry? st.store filepath with
      | some entry =>
        if last_modified = entry.last_modified then
          match resolve_refs fuel fs entry.referenced_files entry.module_path
              { st with store := eraseKey st.store filepath,
                        out := st.out ++ replayRegs entry.fn_paths } with
          | none => none
          | some st2 => some { st2 with store := insertKey st2.store filepath entry }
        else
          search_file fuel fs filepath entry.module_path entry.search_directory
            last_modified { st with store := eraseKey st.store filepath }
      | none =>
        search_file fuel fs filepath module_path (rootSearchPath filepath)
          last_modified st
termination_by structural fuel _ _ _ _ => fuel

/-- The `for file in entry.referenced_files` loop of the fresh branch. -/
def resolve_refs : Nat → FSys → List PathBuf → List String → PassState → Option PassState
  | 0, _, _, _, _ => none
  | fuel + 1, fs, refs, module_path, st =>
    match refs with
    | [] => some st
    | f :: rest =>
      match search_file_cache fuel fs f module_path st with
      | none => none
      | some st1 => resolve_refs fuel fs rest module_path st1
termination_by structural fuel _ _ _ _ => fuel

/-- `search_file` from `src/lib.rs`: open and parse the file (fatal when
missing), scan its items, then insert the freshly built `CacheEntry`.  The
scan log records the invocation. -/
def search_file : Nat → FSys → PathBuf → List String → PathBuf → Nat → PassState → Option PassState
  | 0, _, _, _, _, _, _ => none
  | fuel + 1, fs, filepath, module_path, search_path, last_modified, st =>
    match fs.find? filepath with
    | none => none
    | some fd =>
      match search_contents fuel fs fd.items module_path search_path
          { st with scans := st.scans ++ [filepath] } with
      | none => none
      | some (st1, csr) =>
        let entry : CacheEntry :=
          ⟨last_modified, csr.direct_referenced_paths, csr.direct_additions,
           module_path, search_path⟩
        some { st1 with store := insertKey st1.store filepath entry }
termination_by structural fuel _ _ _ _ _ _ => fuel

/-- `search_contents` from `src/lib.rs`: walk the items in order; a
function whose attributes contain `system` is emitted and recorded; an
inline module recurses with extended module path and search directory; an
external module is resolved to `dir.rs`, or `dir/mod.rs` when that file
does not exist, handed to `search_file_cache`, and recorded as a
referenced path. -/
def search_contents : Nat → FSys → List Item → List String → PathBuf → PassState → Option (PassState × ContentSearchResult)
  | 0, _, _, _, _, _ => none
  | fuel + 1, fs, content, module_path, search_path, st =>
    match content with
    | [] => some (st, ⟨[], []⟩)
    | Item.fnDecl name attrs :: rest =>
      match (attrs.filter (fun a => a.path.length = 1)).find?
          (fun a => a.path = ["system"]) with
      | some a =>
        let path := module_path ++ [name]
        let reg := match a.args with
          | some stg => Reg.addSystemToStage stg path false
          | none => Reg.addSystem path false
        match search_contents fuel fs rest module_path search_path
            { st with out := st.out ++ [reg] } with
        | none => none
        | some (st2, csr) =>
          some (st2, ⟨⟨path, a.args⟩ :: csr.direct_additions, csr.direct_referenced_paths⟩)
      | none => search_contents fuel fs rest module_path search_path st
    | Item.modDecl name sub :: rest =>
      match sub with
      | some inner =>
        match search_contents fuel fs inner (module_path ++ [name])
            (search_path ++ [name]) st with
        | none => none
        | some (st1, subcsr) =>
          match search_contents fuel fs rest module_path search_path st1 with
          | none => none
          | some (st2, csr) =>
            some (st2, ⟨subcsr.direct_additions ++ csr.direct_additions,
                        subcsr.direct_referenced_paths ++ csr.direct_referenced_paths⟩)
      | none =>
        let dir := search_path ++ [name]
        let filepath :=
          if (fs.find? (withExtension dir "rs")).isSome then withExtension dir "rs"
          else withExtension (dir ++ ["mod"]) "rs"
        match search_file_cache fuel fs filepath (module_path ++ [name]) st with
        | none => none
        | some st1 =>
          match search_contents fuel fs rest module_path search_path st1 with
          | none => none
          | some (st2, csr) =>
            some (st2, ⟨csr.direct_additions, filepath :: csr.direct_referenced_paths⟩)
    | Item.other :: rest => search_contents fuel fs rest module_path search_path st
termination_by structural fuel _ _ _ _ _ => fuel

end

/-- One whole pass of `derive_discovery_plugin` after the cache load: the
traversal starts at the configured root with symbolic module path
`quote!{ self }` and an empty output. -/
def runPass (fuel : Nat) (fs : FSys) (root : PathBuf) (store0 : Store) : Option PassState :=
  search_file_cache fuel fs root ["self"] { store := store0, out := [], scans := [] }

/-- The possible outcomes of obtaining the persisted cache artifact at pass
start, mirroring the chain in `derive_discovery_plugin`:
`File::open(..).ok()`, then `read_to_string(..).expect(..)`, then
`parse::<ron::Value>().ok()`, `unwrap_or_else(empty map)`,
`into_rust::<FxHashMap<..>>()` and `unwrap_or_default()`. -/
inductive CacheArtifact where
  | missing
  | unreadable
  | unparseable
  | illTyped
  | wellFormed (store : Store)

/-- The cache-load step of `derive_discovery_plugin`.  A missing artifact,
one that does not parse as a `ron::Value`, or one whose value does not
deserialize into the entry map all fall back to the empty store; a read
failure after a successful open hits `.expect("Unable to read cache")` and
aborts (`none`). -/
def loadCache : CacheArtifact → Option Store
  | CacheArtifact.missing => some []
  | CacheArtifact.unreadable => none
  | CacheArtifact.unparseable => some []
  | CacheArtifact.illTyped => some []
  | CacheArtifact.wellFormed s => some s

/-- Reference order of discovery, written from the spec's words: every
function at the current nesting level carrying the marker attribute yields
one declaration `⟨module_path ++ [name], argument tokens⟩`, in source
order, depth-first through inline sub-modules; external modules contribute
nothing to the file's own declarations. -/
def collectDecls : List String → List Item → List SystemEntry
  | _, [] => []
  | mp, Item.fnDecl name attrs :: rest =>
    (match attrs.find? (fun a => a.path = ["system"]) with
     | some a => [⟨mp ++ [name], a.args⟩]
     | none => []) ++ collectDecls mp rest
  | mp, Item.modDecl name (some inner) :: rest =>
    collectDecls (mp ++ [name]) inner ++ collectDecls mp rest
  | mp, Item.modDecl _ none :: rest => collectDecls mp rest
  | mp, Item.other :: rest => collectDecls mp rest

/-- The plain (unescaped) spelling of a possibly raw-escaped segment.
Modelled from the spec: the Path Normalizer section claims escaped
segments are rewritten "back to its plain spelling"; this is that claimed
rewrite, for comparison with what `search_file_cache` actually does. -/
def plainSpelling (s : String) : String :=
  if isRawSeg s then String.mk (s.toList.drop 2) else s

/-- The external-module continuation of `search_contents`: resolve the
chosen candidate file through `search_file_cache` with the module path
extended by the module name, record it as a referenced path, then continue
with the remaining items. -/
def externalStep (fuel : Nat) (fs : FSys) (fp : PathBuf) (childPath : List String)
    (rest : List Item) (module_path : List String) (search_path : PathBuf)
    (st : PassState) : Option (PassState × ContentSearchResult) :=
  match search_file_cache fuel fs fp childPath st with
  | none => none
  | some st1 =>
    match search_contents fuel fs rest module_path search_path st1 with
    | none => none
    | some (st2, csr) =>
      some (st2, ⟨csr.direct_additions, fp :: csr.direct_referenced_paths⟩)

/-- A project with one root file holding a single `#[system]` function. -/
def c1Fs : FSys :=
  ⟨[(["src", "main.rs"], ⟨0, [Item.fnDecl "f" [⟨["system"], none⟩]]⟩)]⟩

/-- The store persisted by a cold pass over `c1Fs`. -/
def c1ColdStore : Store :=
  ((runPass 6 c1Fs ["src", "main.rs"] []).map PassState.store).getD []

/-- A root file referencing the same external module file twice, so the
same file is reached from two branches of one traversal. -/
def c4Fs : FSys :=
  ⟨[(["src", "main.rs"], ⟨0, [Item.modDecl "c" none, Item.modDecl "c" none]⟩),
    (["src", "c.rs"], ⟨0, [Item.fnDecl "h" [⟨["system"], none⟩]]⟩)]⟩

/-- A fresh cache entry whose referenced-file list is empty, for the
revisit witness. -/
def c4wEntry : CacheEntry :=
  ⟨0, [], [⟨["self", "c", "h"], none⟩], ["self", "c"], ["src", "c"]⟩

/-- A valid cache entry for `src/a.rs` with one recorded declaration and
one referenced file, whose recorded module path `["aa"]` differs from the
caller's, so the replay's symbolic prefix is observable. -/
def c5wEntryA : CacheEntry :=
  ⟨0, [["src", "b.rs"]], [⟨["self", "a1"], some "PRE"⟩], ["aa"], ["src"]⟩

/-- Two files: cached `src/a.rs` and uncached `src/b.rs`. -/
def c5wFs : FSys :=
  ⟨[(["src", "a.rs"], ⟨0, [Item.other]⟩),
    (["src", "b.rs"], ⟨7, [Item.fnDecl "g" [⟨["system"], none⟩]]⟩)]⟩

/-- A root whose on-disk content is empty. -/
def c6Fs : FSys := ⟨[(["src", "main.rs"], ⟨0, []⟩)]⟩

/-- A stale entry (stored timestamp 5, current 0) recording module path
`["old"]`, different from the caller-supplied `["self"]`. -/
def c6Stale : CacheEntry := ⟨5, [], [], ["old"], ["src"]⟩

/-- One existing external-module file, for the resolver witness. -/
def c7Fs : FSys := ⟨[(["src", "sub.rs"], ⟨0, []⟩)]⟩

/-- Scanner input: a marked function, an inline module holding a marked
staged function, an unmarked function, and a function whose only `system`
attribute has a multi-segment path (hence no single-identifier name). -/
def c9Items : List Item :=
  [Item.fnDecl "f" [⟨["system"], none⟩],
   Item.modDecl "m" (some [Item.fnDecl "g" [⟨["system"], some "LATE"⟩]]),
   Item.fnDecl "x" [],
   Item.fnDecl "y" [⟨["a", "system"], some "S"⟩]]

/-- Helper: inserting a binding makes it the one found under its key. -/
theorem findEntry?_insertKey (st : Store) (k : PathBuf) (v : CacheEntry) :
    findEntry? (insertKey st k v) k = some v := by
  simp [insertKey, findEntry?]

/-- Helper: a successful `search_file` leaves, under the scanned file's
key, exactly the freshly built entry: the passed timestamp, the passed
module path and the passed search directory. -/
theorem search_file_inserts (fuel : Nat) (fs : FSys) (p : PathBuf)
    (mp : List String) (sp : PathBuf) (t : Nat) (st r : PassState)
    (h : search_file fuel fs p mp sp t st = some r) :
    ∃ en, findEntry? r.store p = some en ∧ en.last_modified = t ∧
      en.module_path = mp ∧ en.search_directory = sp := by
  match fuel with
  | 0 => simp [search_file] at h
  | fuel + 1 =>
    simp only [search_file] at h
    split at h
    · cases h
    · split at h
      · cases h
      · cases h
        exact ⟨_, findEntry?_insertKey _ _ _, rfl, rfl, rfl⟩

/-- C1 (code bug): for a fixed file tree, the registration sequence is NOT
identical between a cold-cache and a warm-cache run.  The cached-replay arm
of `search_file_cache` wraps every path in `.system()`
(`.add_system(#path.system())`), while the fresh-scan arm of
`search_contents` emits the bare path (`.add_system(#path)`); since the
cache is meant to be a transparent compile-time optimization, the two runs
were clearly intended to generate identical code, and one of the two arms
is a slip.  On a root with one `#[system] fn f`, the cold pass emits
`.add_system(self::f)` and the immediately following warm pass emits
`.add_system(self::f.system())`. -/
theorem c1_cold_warm_divergence :
    (runPass 6 c1Fs ["src", "main.rs"] []).map PassState.out
        = some [Reg.addSystem ["self", "f"] false]
  ∧ (runPass 6 c1Fs ["src", "main.rs"] c1ColdStore).map PassState.out
        = some [Reg.addSystem ["self", "f"] true]
  ∧ ¬ ([Reg.addSystem ["self", "f"] false] = [Reg.addSystem ["self", "f"] true]) := by
  decide

/-- C2 (counterexample): the normalizer does not rewrite an escaped
segment to its plain spelling — it deletes the segment outright, so the
escaped route and the plain route do not meet at one key: normalizing
`src/r#impl.rs` yields `src`, not `src/impl.rs`, and differs from the
normalization of `src/impl.rs`. -/
theorem c2_counterexample :
    normalizePath ["src", "r#impl.rs"] = ["src"]
  ∧ List.map plainSpelling ["src", "r#impl.rs"] = ["src", "impl.rs"]
  ∧ ¬ (normalizePath ["src", "r#impl.rs"]
        = List.map plainSpelling ["src", "r#impl.rs"])
  ∧ ¬ (normalizePath ["src", "r#impl.rs"] = normalizePath ["src", "impl.rs"]) := by
  decide

/-- C2 (amended): normalization removes every segment that begins with the
raw-identifier escape `r#` and keeps all other segments unchanged, in
order: the result is a sublist of the input, contains no escaped segment,
is a fixed point, and omits an input segment only when that segment is
escaped. -/
theorem c2_amended (p : PathBuf) :
    List.Sublist (normalizePath p) p
  ∧ (normalizePath p).all (fun s => !(isRawSeg s)) = true
  ∧ normalizePath (normalizePath p) = normalizePath p
  ∧ ∀ s, s ∈ p → s ∉ normalizePath p → isRawSeg s = true := by
  refine ⟨List.filter_sublist p, ?_, ?_, ?_⟩
  · rw [List.all_eq_true]
    intro s hs
    exact (List.mem_filter.mp hs).2
  · simp [normalizePath, List.filter_filter]
  · intro s hs hns
    cases hraw : isRawSeg s with
    | true => rfl
    | false =>
      exact absurd (List.mem_filter.mpr ⟨hs, by simp [hraw]⟩) hns

/-- C2 (amended, witness): the amended statement applied to the concrete
path `["src", "r#impl.rs"]` and its escaped segment. -/
theorem c2_amended_witness : isRawSeg "r#impl.rs" = true :=
  (c2_amended ["src", "r#impl.rs"]).2.2.2 "r#impl.rs" (by decide) (by decide)

/-- C3 (counterexample): a cache artifact that opens but fails to read
hits `.expect("Unable to read cache")` and aborts the pass instead of
recovering with an empty store, contradicting the claim that every failure
mode of obtaining the cache recovers locally. -/
theorem c3_counterexample :
    loadCache CacheArtifact.unreadable = none
  ∧ ¬ (loadCache CacheArtifact.unreadable = some []) := by
  decide

/-- C3 (amended): a missing artifact, one that does not parse as a value,
and one whose value does not deserialize into the entry map all recover
locally to the empty store; only a read failure after a successful open
aborts the pass. -/
theorem c3_amended :
    loadCache CacheArtifact.missing = some []
  ∧ loadCache CacheArtifact.unparseable = some []
  ∧ loadCache CacheArtifact.illTyped = some [] := by
  decide

/-- C4 (counterexample): with the root referencing the same external file
`src/c.rs` twice, the second visit does NOT trigger a full rescan: the
Declaration Scanner runs on `src/c.rs` exactly once (the scan log holds it
once, not twice), because the first visit inserted a fresh entry before the
second visit began; the second visit replays that entry (visible as the
`.system()`-wrapped second registration). -/
theorem c4_counterexample :
    (runPass 8 c4Fs ["src", "main.rs"] []).map PassState.scans
        = some [["src", "main.rs"], ["src", "c.rs"]]
  ∧ List.count (["src", "c.rs"] : PathBuf) [["src", "main.rs"], ["src", "c.rs"]] = 1
  ∧ ¬ (List.count (["src", "c.rs"] : PathBuf) [["src", "main.rs"], ["src", "c.rs"]] = 2)
  ∧ (runPass 8 c4Fs ["src", "main.rs"] []).map PassState.out
        = some [Reg.addSystem ["self", "c", "h"] false,
                Reg.addSystem ["self", "c", "h"] true] := by
  decide

/-- C4 (amended): a revisit of a file whose store entry matches the
current modification time does not rescan it: when the entry's
referenced-file list is empty (the spec's no-self-reference invariant makes
the recursive resolution irrelevant to this file), the visit replays the
recorded declarations, reinserts the entry, and adds nothing to the scan
log.  A second visit therefore forces a full rescan only when it happens
before the first visit completes; once the first visit has finished, its
(re)inserted entry is found fresh and replayed. -/
theorem c4_amended (fuel : Nat) (fs : FSys) (p : PathBuf) (mp : List String)
    (st : PassState) (e : CacheEntry)
    (hfind : findEntry? st.store (normalizePath p) = some e)
    (hm : mtimeOf fs (normalizePath p) = some e.last_modified)
    (hrefs : e.referenced_files = []) :
    search_file_cache (fuel + 2) fs p mp st = some
      { store := insertKey (eraseKey st.store (normalizePath p)) (normalizePath p) e,
        out := st.out ++ replayRegs e.fn_paths,
        scans := st.scans } := by
  simp [search_file_cache, hm, hfind, hrefs, resolve_refs]

/-- C4 (amended, witness): revisiting `src/c.rs` with the fresh entry
`c4wEntry` already in the store replays the recorded registration (with the
`.system()` wrapper), reinserts the entry, and scans nothing. -/
theorem c4_amended_witness :
    search_file_cache 2 c4Fs ["src", "c.rs"] ["x"]
        ⟨[(["src", "c.rs"], c4wEntry)], [], []⟩ = some
      ⟨[(["src", "c.rs"], c4wEntry)], [Reg.addSystem ["self", "c", "h"] true], []⟩ :=
  c4_amended 0 c4Fs ["src", "c.rs"] ["x"] ⟨[(["src", "c.rs"], c4wEntry)], [], []⟩
    c4wEntry (by decide) (by decide) (by decide)

/-- C5 (confirmed): when a store entry exists for the normalized file and
its stored timestamp equals the file's current modification time, the pass
(1) appends the entry's `fn_paths` to the output in recorded order, each
with its recorded stage or none (`replayRegs`), (2) resolves each of the
entry's `referenced_files` in recorded order through `resolve_refs`, with
the entry's own `module_path` as the symbolic prefix, (3) reinserts the
entry, unchanged, under the same key, and (4) invokes the Declaration
Scanner only inside that reference resolution — never directly on this
file (the scan log grows exactly by what `resolve_refs` contributes). -/
theorem c5_fresh_replay (fuel : Nat) (fs : FSys) (p : PathBuf)
    (mp : List String) (st : PassState) (e : CacheEntry)
    (hfind : findEntry? st.store (normalizePath p) = some e)
    (hm : mtimeOf fs (normalizePath p) = some e.last_modified) :
    search_file_cache (fuel + 1) fs p mp st =
      match resolve_refs fuel fs e.referenced_files e.module_path
          { st with store := eraseKey st.store (normalizePath p),
                    out := st.out ++ replayRegs e.fn_paths } with
      | none => none
      | some st2 => some { st2 with store := insertKey st2.store (normalizePath p) e } := by
  simp [search_file_cache, hm, hfind]

/-- C5 (witness): replaying the valid entry for `src/a.rs` emits its
recorded staged declaration first (wrapped in `.system()`), then resolves
the recorded reference `src/b.rs` under the entry's module path `["aa"]`
(scanning it, since it has no entry), and reinserts the entry unchanged. -/
theorem c5_fresh_replay_witness :
    search_file_cache 6 c5wFs ["src", "a.rs"] ["self"]
        ⟨[(["src", "a.rs"], c5wEntryA)], [], []⟩ = some
      ⟨[(["src", "a.rs"], c5wEntryA),
        (["src", "b.rs"], ⟨7, [], [⟨["aa", "g"], none⟩], ["aa"], ["src", "b"]⟩)],
       [Reg.addSystemToStage "PRE" ["self", "a1"] true, Reg.addSystem ["aa", "g"] false],
       [["src", "b.rs"]]⟩ :=
  c5_fresh_replay 5 c5wFs ["src", "a.rs"] ["self"]
    ⟨[(["src", "a.rs"], c5wEntryA)], [], []⟩ c5wEntryA (by decide) (by decide)

/-- C6 (counterexample): rescanning a stale entry does not store the
caller-supplied module path.  With a stale entry recording module path
`["old"]` and the caller supplying `["self"]`, the entry rebuilt by the
rescan carries `["old"]`: the stale branch shadows the caller's
`module_path` with the entry's recorded one before calling `search_file`. -/
theorem c6_counterexample :
    (runPass 4 c6Fs ["src", "main.rs"] [(["src", "main.rs"], c6Stale)]).map
        (fun stp => (findEntry? stp.store ["src", "main.rs"]).map CacheEntry.module_path)
      = some (some ["old"])
  ∧ ¬ ((["old"] : List String) = ["self"]) := by
  decide

/-- C6 (amended): whenever a file is rescanned, the new entry carries the
fresh timestamp; its module path and search directory depend on why the
rescan happened: with no prior entry they are the caller-supplied module
path and the root-resolution search directory, while with a stale prior
entry they are the stale entry's recorded `module_path` (not the
caller's) and its recorded `search_directory`. -/
theorem c6_amended (fuel : Nat) (fs : FSys) (p : PathBuf) (mp : List String)
    (st r : PassState) (t : Nat)
    (hm : mtimeOf fs (normalizePath p) = some t)
    (hr : search_file_cache (fuel + 1) fs p mp st = some r) :
    (findEntry? st.store (normalizePath p) = none →
      ∃ en, findEntry? r.store (normalizePath p) = some en ∧
        en.module_path = mp ∧ en.last_modified = t ∧
        en.search_directory = rootSearchPath (normalizePath p))
  ∧ (∀ e, findEntry? st.store (normalizePath p) = some e → ¬ t = e.last_modified →
      ∃ en, findEntry? r.store (normalizePath p) = some en ∧
        en.module_path = e.module_path ∧ en.last_modified = t ∧
        en.search_directory = e.search_directory) := by
  constructor
  · intro hn
    simp only [search_file_cache, hm, hn] at hr
    obtain ⟨en, h1, h2, h3, h4⟩ := search_file_inserts _ _ _ _ _ _ _ _ hr
    exact ⟨en, h1, h3, h2, h4⟩
  · intro e he hne
    simp only [search_file_cache, hm, he, if_neg hne] at hr
    obtain ⟨en, h1, h2, h3, h4⟩ := search_file_inserts _ _ _ _ _ _ _ _ hr
    exact ⟨en, h1, h3, h2, h4⟩

/-- C6 (amended, witness): the amended statement at the concrete stale
scenario: the rebuilt entry carries the stale entry's module path
`["old"]`, the fresh timestamp `0`, and the stale entry's recorded search
directory. -/
theorem c6_amended_witness :
    ∃ en, findEntry? [(["src", "main.rs"],
        (⟨0, [], [], ["old"], ["src"]⟩ : CacheEntry))] (normalizePath ["src", "main.rs"])
          = some en ∧
      en.module_path = c6Stale.module_path ∧ en.last_modified = 0 ∧
      en.search_directory = c6Stale.search_directory :=
  (c6_amended 3 c6Fs ["src", "main.rs"] ["self"]
      ⟨[(["src", "main.rs"], c6Stale)], [], []⟩
      ⟨[(["src", "main.rs"], ⟨0, [], [], ["old"], ["src"]⟩)], [], [["src", "main.rs"]]⟩
      0 (by decide) (by decide)).2 c6Stale (by decide) (by decide)

/-- C10 (confirmed): a successful invocation of `search_file_cache` on a
file always leaves, under the file's normalized key, an entry whose
`last_modified` equals the modification time read at the start of that
invocation — whether the entry was replayed fresh (reinserted unchanged,
its timestamp equal to the current one by the branch condition), replaced
after being stale, or newly created. -/
theorem c10_store_invariant (fuel : Nat) (fs : FSys) (p : PathBuf)
    (mp : List String) (st r : PassState) (t : Nat)
    (hm : mtimeOf fs (normalizePath p) = some t)
    (hr : search_file_cache fuel fs p mp st = some r) :
    ∃ en, findEntry? r.store (normalizePath p) = some en ∧ en.last_modified = t := by
  match fuel with
  | 0 => simp [search_file_cache] at hr
  | fuel + 1 =>
    simp only [search_file_cache, hm] at hr
    split at hr
    · rename_i e hfind
      split at hr
      · rename_i ht
        split at hr
        · cases hr
        · cases hr
          exact ⟨e, findEntry?_insertKey _ _ _, ht.symm⟩
      · obtain ⟨en, h1, h2, _, _⟩ := search_file_inserts _ _ _ _ _ _ _ _ hr
        exact ⟨en, h1, h2⟩
    · obtain ⟨en, h1, h2, _, _⟩ := search_file_inserts _ _ _ _ _ _ _ _ hr
      exact ⟨en, h1, h2⟩

/-- C10 (witness): the cold pass over `c1Fs` stores, under the root's key,
an entry stamped with the root's current modification time `0`. -/
theorem c10_store_invariant_witness :
    ∃ en, findEntry? [(["src", "main.rs"],
        (⟨0, [], [⟨["self", "f"], none⟩], ["self"], ["src"]⟩ : CacheEntry))]
        (normalizePath ["src", "main.rs"]) = some en ∧ en.last_modified = 0 :=
  c10_store_invariant 6 c1Fs ["src", "main.rs"] ["self"] ⟨[], [], []⟩
    ⟨[(["src", "main.rs"], ⟨0, [], [⟨["self", "f"], none⟩], ["self"], ["src"]⟩)],
     [Reg.addSystem ["self", "f"] false], [["src", "main.rs"]]⟩
    0 (by decide) (by decide)

/-- Helper: on a component with no dot, `set_extension` appends a dot and
the extension. -/
theorem setExtStr_nodot (s e : String) (h : '.' ∉ s.toList) (he : ¬ e.isEmpty = true) :
    setExtStr s e = s ++ ("." ++ e) := by
  have hdrop : s.toList.reverse.dropWhile (fun c => c != '.') = [] := by
    rw [List.dropWhile_eq_nil_iff]
    intro c hc
    simp only [bne_iff_ne, ne_eq]
    intro hcdot
    exact h (by simpa [hcdot] using (List.mem_reverse.mp hc))
  unfold setExtStr extSplitRev
  rw [hdrop]
  simp [he]

/-- Helper: `with_extension` rewrites exactly the last component. -/
theorem withExtension_append (q : PathBuf) (s : String) (e : String) :
    withExtension (q ++ [s]) e = q ++ [setExtStr s e] := by
  induction q with
  | nil => rfl
  | cons a q ih =>
      cases q with
      | nil => simp [withExtension, setExtStr]
      | cons b q => simpa [withExtension] using ih

/-- C7 (confirmed): an external module declaration named `N`, scanned with
search directory `D`, resolves to candidate `D/N.rs` (the name with the
source extension appended — `N` being an identifier has no dot); when that
file does not exist, `D/N/mod.rs` is used instead; and in both cases the
child is resolved with symbolic module path `parent ++ [N]` and the chosen
file is recorded as a referenced path (`externalStep`). -/
theorem c7_external_module_resolution (fuel : Nat) (fs : FSys) (name : String)
    (rest : List Item) (mp : List String) (sp : PathBuf) (st : PassState)
    (hname : '.' ∉ name.toList) :
    ((fs.find? (sp ++ [name ++ ".rs"])).isSome = true →
      search_contents (fuel + 1) fs (Item.modDecl name none :: rest) mp sp st
        = externalStep fuel fs (sp ++ [name ++ ".rs"]) (mp ++ [name]) rest mp sp st)
  ∧ ((fs.find? (sp ++ [name ++ ".rs"])).isSome = false →
      search_contents (fuel + 1) fs (Item.modDecl name none :: rest) mp sp st
        = externalStep fuel fs (sp ++ [name, "mod.rs"]) (mp ++ [name]) rest mp sp st) := by
  have h1 : withExtension (sp ++ [name]) "rs" = sp ++ [name ++ ".rs"] := by
    rw [withExtension_append, setExtStr_nodot name "rs" hname (by decide)]
    rfl
  have h2 : withExtension (sp ++ [name, "mod"]) "rs" = sp ++ [name, "mod.rs"] := by
    have e1 : sp ++ [name, "mod"] = (sp ++ [name]) ++ ["mod"] := by simp
    rw [e1, withExtension_append]
    simp [show setExtStr "mod" "rs" = "mod.rs" from by decide]
  constructor
  · intro hex
    simp [search_contents, externalStep, h1, h2, hex]
  · intro hex
    simp [search_contents, externalStep, h1, h2, hex]

/-- C7 (witness): with `src/sub.rs` present, the scanner step on
`mod sub;` under search directory `src` hands `src/sub.rs` to
`search_file_cache` with child module path `self::sub`. -/
theorem c7_external_module_resolution_witness :
    search_contents 3 c7Fs [Item.modDecl "sub" none] ["self"] ["src"] ⟨[], [], []⟩
      = externalStep 2 c7Fs (["src"] ++ ["sub" ++ ".rs"]) (["self"] ++ ["sub"])
          [] ["self"] ["src"] ⟨[], [], []⟩ :=
  (c7_external_module_resolution 2 c7Fs "sub" [] ["self"] ["src"] ⟨[], [], []⟩
    (by decide)).1 (by decide)

/-- C8 (confirmed): a file resolved with no existing cache entry gets, as
its search directory, its own (normalized) path with the extension
stripped, unless its base name is one of the reserved root names `mod`,
`lib`, `main`, in which case the parent directory is used; in particular
`src/main.rs` yields `src` and `src/feature/plugin.rs` yields
`src/feature/plugin`. -/
theorem c8_root_search_dir (fuel : Nat) (fs : FSys) (p : PathBuf)
    (mp : List String) (st : PassState) (t : Nat)
    (hm : mtimeOf fs (normalizePath p) = some t)
    (hn : findEntry? st.store (normalizePath p) = none) :
    search_file_cache (fuel + 1) fs p mp st
      = search_file fuel fs (normalizePath p) mp (rootSearchPath (normalizePath p)) t st
  ∧ rootSearchPath ["src", "main.rs"] = ["src"]
  ∧ rootSearchPath ["src", "feature", "plugin.rs"] = ["src", "feature", "plugin"] := by
  refine ⟨?_, by decide, by decide⟩
  simp [search_file_cache, hm, hn]

/-- C8 (witness): the concrete cold visit of `src/main.rs` takes the
no-entry branch with search directory `rootSearchPath`, and the two
concrete root resolutions hold. -/
theorem c8_root_search_dir_witness :
    search_file_cache 4 c1Fs ["src", "main.rs"] ["self"] ⟨[], [], []⟩
      = search_file 3 c1Fs (normalizePath ["src", "main.rs"]) ["self"]
          (rootSearchPath (normalizePath ["src", "main.rs"])) 0 ⟨[], [], []⟩
  ∧ rootSearchPath ["src", "main.rs"] = ["src"]
  ∧ rootSearchPath ["src", "feature", "plugin.rs"] = ["src", "feature", "plugin"] :=
  c8_root_search_dir 3 c1Fs ["src", "main.rs"] ["self"] ⟨[], [], []⟩ 0
    (by decide) (by decide)

/-- Helper: restricting the attribute search to single-segment attribute
paths before looking for `system` finds the same attribute as looking for
`system` directly, since the `system` path is itself single-segment. -/
theorem find_system_filter (attrs : List FnAttr) :
    (attrs.filter (fun a => a.path.length = 1)).find? (fun a => a.path = ["system"])
      = attrs.find? (fun a => a.path = ["system"]) := by
  induction attrs with
  | nil => rfl
  | cons a rest ih =>
    by_cases hsys : a.path = ["system"]
    · have hlen : a.path.length = 1 := by rw [hsys]; rfl
      simp [List.filter, List.find?, hsys, hlen]
    · by_cases hlen : a.path.length = 1
      · simp [List.filter, List.find?, hsys, hlen, ih]
      · simp [List.filter, List.find?, hsys, hlen, ih]

/-- C9 (confirmed): on any successful scan, the declarations the scanner
records for a file equal `collectDecls`: one declaration per function
carrying the `system` marker attribute at its nesting level, with path
`module_path ++ [function name]` and the attribute's argument tokens
verbatim as its stage (absent when no parenthesized argument is given), in
source declaration order, depth-first through inline sub-modules. -/
theorem c9_scan_order (fuel : Nat) (fs : FSys) (content : List Item)
    (mp : List String) (sp : PathBuf) (st st2 : PassState)
    (csr : ContentSearchResult)
    (h : search_contents fuel fs content mp sp st = some (st2, csr)) :
    csr.direct_additions = collectDecls mp content := by
  induction fuel generalizing content mp sp st st2 csr with
  | zero => simp [search_contents] at h
  | succ fuel ih =>
    cases content with
    | nil =>
      simp only [search_contents] at h
      cases h
      simp [collectDecls]
    | cons item rest =>
      cases item with
      | fnDecl name attrs =>
        simp only [search_contents] at h
        rw [find_system_filter] at h
        split at h
        · rename_i a hfind
          split at h
          · cases h
          · rename_i st2x csrx hrec
            cases h
            simp [collectDecls, hfind, ih _ _ _ _ _ _ hrec]
        · rename_i hfind
          rw [show collectDecls mp (Item.fnDecl name attrs :: rest) = collectDecls mp rest
            from by simp [collectDecls, hfind]]
          exact ih _ _ _ _ _ _ h
      | modDecl name sub =>
        cases sub with
        | some inner =>
          simp only [search_contents] at h
          split at h
          · cases h
          · rename_i st1 subcsr hsub
            split at h
            · cases h
            · rename_i st2x csrx hrest
              cases h
              simp [collectDecls, ih _ _ _ _ _ _ hsub, ih _ _ _ _ _ _ hrest]
        | none =>
          simp only [search_contents] at h
          split at h
          · cases h
          · rename_i st1 hsfc
            split at h
            · cases h
            · rename_i st2x csrx hrest
              cases h
              simp [collectDecls, ih _ _ _ _ _ _ hrest]
      | other =>
        simp only [search_contents] at h
        rw [show collectDecls mp (Item.other :: rest) = collectDecls mp rest
          from by simp [collectDecls]]
        exact ih _ _ _ _ _ _ h

/-- C9 (witness): the scanner over a marked function, an inline module
with a staged marked function, an unmarked function and a function whose
`system` attribute path is not a single identifier records exactly the
spec-order collection. -/
theorem c9_scan_order_witness :
    ([⟨["self", "f"], none⟩, ⟨["self", "m", "g"], some "LATE"⟩]
        : List SystemEntry)
      = collectDecls ["self"] c9Items :=
  c9_scan_order 6 ⟨[]⟩ c9Items ["self"] ["src"] ⟨[], [], []⟩
    ⟨[], [Reg.addSystem ["self", "f"] false,
          Reg.addSystemToStage "LATE" ["self", "m", "g"] false], []⟩
    ⟨[⟨["self", "f"], none⟩, ⟨["self", "m", "g"], some "LATE"⟩], []⟩
    (by decide)
